import Mathlib

set_option linter.unusedVariables false

/-!
Shallow embedding of the expression calculator in `src/main.cpp`
(tokenizer, recursive-descent parser, expression-tree evaluation).

Modelling conventions:
* `long long` (`ll`) values are modelled as `Int`; 64-bit overflow and the
  `out_of_range` exception of `std::stoll` are not modelled, since no claim
  depends on them.
* Exceptions are modelled by `Except Err`.  Undefined behaviour in the C++
  source is made explicit by distinguished `Err` constructors:
  `Err.intDivUB` for the unguarded native integer division by zero in
  `Factor::calculate`, and `Err.outOfBounds` for dereferencing or
  incrementing the token-list iterator at/past `tokens.end()` in
  `Parser::parsePrimary`.
* The mutually recursive parser is given a numeric fuel argument so that the
  recursion is structural; `Err.outOfFuel` corresponds to nothing in the
  source and is never produced for the token sequences considered (the fuel
  supplied by `parse` is far larger than the parser can consume).
* The C++ classes `Primary` (abstract) and `Parentesized` are omitted from
  the expression type: the parser never constructs a `Parentesized` node
  (a parenthesized group is returned as the inner tree itself), so neither
  is reachable.
-/

/-- ASCII lower-casing of one character.  This models the case folding done
both by `regex_constants::icase` and by `_strcmpi` in the source. -/
def charLower (c : Char) : Char :=
  if 'A' ≤ c ∧ c ≤ 'Z' then Char.ofNat (c.toNat + 32) else c

/-- Lower-casing of a whole string. -/
def strLower (s : String) : String := String.mk (s.data.map charLower)

/-- Models `_strcmpi(a, b) == 0`: case-insensitive string equality. -/
def strcmpiEq (a b : String) : Bool := strLower a = strLower b

/-- `Logical::check`: full, case-insensitive regex match of
`(and|or|xor)`. -/
def Logical.check (op : String) : Bool :=
  strcmpiEq op "and" || strcmpiEq op "or" || strcmpiEq op "xor"

/-- `Relation::check`: full regex match of `(<=|>=|\/=|!=)|([><=])`
(the `icase` flag is irrelevant here: the pattern contains no letters). -/
def Relation.check (op : String) : Bool :=
  op = "<=" || op = ">=" || op = "/=" || op = "!=" ||
  op = ">" || op = "<" || op = "="

/-- `Term::check`. -/
def Term.check (op : String) : Bool := op = "+" || op = "-"

/-- `Factor::check`. -/
def Factor.check (op : String) : Bool := op = "*" || op = "/"

/-- The expression tree built by `Parser`.  Operator spellings are kept as
the strings stored in the nodes by the source. -/
inductive Expr where
  | logical (op : String) (left right : Expr)
  | relation (op : String) (left right : Expr)
  | term (op : String) (left right : Expr)
  | factor (op : String) (left right : Expr)
  | integer (value : Int)
deriving DecidableEq, Repr

/-- Failure outcomes of the pipeline.  `lexError` is the
`throw exception("wrong syntax")` of `Parser::tokenize`; `syntaxError` is
`throw exception("syntax error (primary)")` of `Parser::parsePrimary`;
`evalNone s` is the `throw exception("<s> NONE")` at the end of each
`calculate`; `intDivUB` and `outOfBounds` mark undefined behaviour of the
source (native division by zero, and list-iterator misuse at end of the
token sequence); `outOfFuel` is an artifact of the fuelled embedding. -/
inductive Err where
  | lexError
  | syntaxError
  | evalNone (node : String)
  | outOfBounds
  | intDivUB
  | outOfFuel
deriving DecidableEq, Repr

def exceptDecEq {ε α : Type} [DecidableEq ε] [DecidableEq α] :
    DecidableEq (Except ε α) := fun a b =>
  match a, b with
  | .error a, .error b =>
    if h : a = b then .isTrue (by rw [h]) else .isFalse (fun hh => h (by cases hh; rfl))
  | .error _, .ok _ => .isFalse (fun hh => Except.noConfusion hh)
  | .ok _, .error _ => .isFalse (fun hh => Except.noConfusion hh)
  | .ok a, .ok b =>
    if h : a = b then .isTrue (by rw [h]) else .isFalse (fun hh => h (by cases hh; rfl))

instance {ε α : Type} [DecidableEq ε] [DecidableEq α] : DecidableEq (Except ε α) :=
  exceptDecEq

/-- The `calculate` virtual method: post-order evaluation of the tree.
Each branch mirrors the corresponding C++ `calculate` body, including the
order of the string comparisons used for operator dispatch and the final
`throw` when none matches. -/
def calculate : Expr → Except Err Int
  | .integer v => pure v
  | .logical op l r => do
    let r1 ← calculate l
    let r2 ← calculate r
    if strcmpiEq op "and" then pure (if 0 < r1 ∧ 0 < r2 then 1 else 0)
    else if strcmpiEq op "or" then pure (if 0 < r1 ∨ 0 < r2 then 1 else 0)
    else if strcmpiEq op "xor" then pure (if (r1 ≠ 0) ≠ (r2 ≠ 0) then 1 else 0)
    else .error (.evalNone "logical")
  | .relation op l r => do
    let r1 ← calculate l
    let r2 ← calculate r
    if op = "<" then pure (if r1 < r2 then 1 else 0)
    else if op = "<=" then pure (if r1 ≤ r2 then 1 else 0)
    else if op = ">" then pure (if r1 > r2 then 1 else 0)
    else if op = ">=" then pure (if r1 ≥ r2 then 1 else 0)
    else if op = "==" then pure (if r1 = r2 then 1 else 0)
    else if op = "!=" || op = "/=" then pure (if r1 ≠ r2 then 1 else 0)
    else .error (.evalNone "relation")
  | .factor op l r => do
    let r1 ← calculate l
    let r2 ← calculate r
    if op = "*" then pure (r1 * r2)
    else if op = "/" then
      if r2 = 0 then .error .intDivUB else pure (Int.tdiv r1 r2)
    else .error (.evalNone "factor")
  | .term op l r => do
    let r1 ← calculate l
    let r2 ← calculate r
    if op = "+" then pure (r1 + r2)
    else if op = "-" then pure (r1 - r2)
    else .error (.evalNone "term")

/-- Value of a list of decimal digit characters. -/
def natOfDigits (cs : List Char) : Nat :=
  cs.foldl (fun a c => a * 10 + (c.toNat - 48)) 0

/-- Value of the maximal digit prefix, `none` if there is none. -/
def digitPrefixVal (cs : List Char) : Option Nat :=
  match cs with
  | c :: _ => if c.isDigit then some (natOfDigits (cs.takeWhile Char.isDigit)) else none
  | [] => none

/-- Models `std::stoll` as used on tokens: an optional sign followed by a
maximal run of decimal digits; `none` models the `std::invalid_argument`
exception (no digits found).  Leading whitespace and the `out_of_range`
overflow exception are not modelled: tokens never contain whitespace and no
claim involves values outside 64 bits. -/
def stollModel (s : String) : Option Int :=
  match s.data with
  | '-' :: rest => (digitPrefixVal rest).map (fun n => -(n : Int))
  | '+' :: rest => (digitPrefixVal rest).map (fun n => (n : Int))
  | cs => (digitPrefixVal cs).map (fun n => (n : Int))

/-- Case-insensitive test that the (lowercase) keyword `k` is a prefix of
`cs`. -/
def ciStarts : List Char → List Char → Bool
  | [], _ => true
  | _ :: _, [] => false
  | k :: ks, c :: cs => charLower c = k && ciStarts ks cs

/-- One step of `Parser::tokenize`: the leftmost-position match of the
combined token regex
`(and|or|xor)|(<=|>=|\/=|!=)|([><=])|([\+\-\*\/])|([0-9]+)|([()])`
(with `icase`) **at the head** of `cs`.  The alternatives are tried in the
regex's order; the digit alternative is greedy (maximal digit run); the
emitted token is the matched text (original casing preserved).  `tokLen`
gives the length of the match at the head of `cs` (`0`: no alternative
matches here); `tryTok` returns the matched text and the remaining
characters. -/
def tokLen (cs : List Char) : Nat :=
  if ciStarts ['a', 'n', 'd'] cs then 3
  else if ciStarts ['o', 'r'] cs then 2
  else if ciStarts ['x', 'o', 'r'] cs then 3
  else if cs.take 2 = ['<', '='] then 2
  else if cs.take 2 = ['>', '='] then 2
  else if cs.take 2 = ['/', '='] then 2
  else if cs.take 2 = ['!', '='] then 2
  else if cs.take 1 = ['>'] then 1
  else if cs.take 1 = ['<'] then 1
  else if cs.take 1 = ['='] then 1
  else if cs.take 1 = ['+'] then 1
  else if cs.take 1 = ['-'] then 1
  else if cs.take 1 = ['*'] then 1
  else if cs.take 1 = ['/'] then 1
  else if (cs.headD ' ').isDigit then (cs.takeWhile Char.isDigit).length
  else if cs.take 1 = ['('] then 1
  else if cs.take 1 = [')'] then 1
  else 0

def tryTok (cs : List Char) : Option (String × List Char) :=
  match tokLen cs with
  | 0 => none
  | n + 1 => some (String.mk (cs.take (n + 1)), cs.drop (n + 1))

/-- The `while (regex_search(s, m, token))` loop of `Parser::tokenize`:
emit the leftmost match, continue on the suffix.  Searching from the
leftmost position is realised by trying a match at the head and skipping
one character when none of the alternatives matches there (characters
between matches are silently dropped, exactly as `regex_search` does).
The first argument is a structural-recursion bound; every step consumes at
least one character, so the bound `cs.length` used by `scanTokens` is never
exhausted (`scanTokensAux_bound` below). -/
def scanTokensAux : Nat → List Char → List String
  | 0, _ => []
  | n + 1, cs =>
    match cs with
    | [] => []
    | c :: cs' =>
      match tryTok (c :: cs') with
      | some (t, rest) => t :: scanTokensAux n rest
      | none => scanTokensAux n cs'

def scanTokens (cs : List Char) : List String := scanTokensAux cs.length cs

/-- `Parser::tokenize`: scan the whole input, then
`if (tokens.size() == 0) throw exception("wrong syntax")`. -/
def tokenize (s : String) : Except Err (List String) :=
  let ts := scanTokens s.data
  if ts = [] then .error .lexError else .ok ts

mutual

/-- `Parser::parseLogical`, head part: parse the left operand, then enter
the operator loop. -/
def parseLogical : Nat → List String → Nat → Except Err (Expr × Nat)
  | 0, _, _ => .error .outOfFuel
  | fuel + 1, ts, cur => do
    let (left, cur1) ← parseRelation fuel ts cur
    parseLogicalLoop fuel ts left cur1
termination_by structural fuel ts cur => fuel

/-- The `while (true)` loop of `Parser::parseLogical`: `op` is the current
token, or `""` at end of input; while `Logical::check(op)`, consume it,
parse the right operand and fold left-associatively. -/
def parseLogicalLoop : Nat → List String → Expr → Nat → Except Err (Expr × Nat)
  | 0, _, _, _ => .error .outOfFuel
  | fuel + 1, ts, left, cur =>
    let op := (ts[cur]?).getD ""
    if Logical.check op then do
      let (right, cur1) ← parseRelation fuel ts (cur + 1)
      parseLogicalLoop fuel ts (Expr.logical op left right) cur1
    else pure (left, cur)
termination_by structural fuel ts left cur => fuel

/-- `Parser::parseRelation`, head part. -/
def parseRelation : Nat → List String → Nat → Except Err (Expr × Nat)
  | 0, _, _ => .error .outOfFuel
  | fuel + 1, ts, cur => do
    let (left, cur1) ← parseTerm fuel ts cur
    parseRelationLoop fuel ts left cur1
termination_by structural fuel ts cur => fuel

/-- The `while (true)` loop of `Parser::parseRelation`. -/
def parseRelationLoop : Nat → List String → Expr → Nat → Except Err (Expr × Nat)
  | 0, _, _, _ => .error .outOfFuel
  | fuel + 1, ts, left, cur =>
    let op := (ts[cur]?).getD ""
    if Relation.check op then do
      let (right, cur1) ← parseTerm fuel ts (cur + 1)
      parseRelationLoop fuel ts (Expr.relation op left right) cur1
    else pure (left, cur)
termination_by structural fuel ts left cur => fuel

/-- `Parser::parseTerm`, head part. -/
def parseTerm : Nat → List String → Nat → Except Err (Expr × Nat)
  | 0, _, _ => .error .outOfFuel
  | fuel + 1, ts, cur => do
    let (left, cur1) ← parseFactor fuel ts cur
    parseTermLoop fuel ts left cur1
termination_by structural fuel ts cur => fuel

/-- The `while (true)` loop of `Parser::parseTerm`. -/
def parseTermLoop : Nat → List String → Expr → Nat → Except Err (Expr × Nat)
  | 0, _, _, _ => .error .outOfFuel
  | fuel + 1, ts, left, cur =>
    let op := (ts[cur]?).getD ""
    if Term.check op then do
      let (right, cur1) ← parseFactor fuel ts (cur + 1)
      parseTermLoop fuel ts (Expr.term op left right) cur1
    else pure (left, cur)
termination_by structural fuel ts left cur => fuel

/-- `Parser::parseFactor`, head part. -/
def parseFactor : Nat → List String → Nat → Except Err (Expr × Nat)
  | 0, _, _ => .error .outOfFuel
  | fuel + 1, ts, cur => do
    let (left, cur1) ← parsePrimary fuel ts cur
    parseFactorLoop fuel ts left cur1
termination_by structural fuel ts cur => fuel

/-- The `while (true)` loop of `Parser::parseFactor`. -/
def parseFactorLoop : Nat → List String → Expr → Nat → Except Err (Expr × Nat)
  | 0, _, _, _ => .error .outOfFuel
  | fuel + 1, ts, left, cur =>
    let op := (ts[cur]?).getD ""
    if Factor.check op then do
      let (right, cur1) ← parsePrimary fuel ts (cur + 1)
      parseFactorLoop fuel ts (Expr.factor op left right) cur1
    else pure (left, cur)
termination_by structural fuel ts left cur => fuel

/-- `Parser::parsePrimary`.  The source dereferences `*token` with no
bounds check: a cursor at or past the end of the token sequence is the
undefined behaviour modelled by `Err.outOfBounds`.  Otherwise it tries
`stoll` on the token; on `std::invalid_argument` it requires `"("`,
recursively parses a full expression and then executes `token++` to "skip"
the closing parenthesis — again without any check, so the skipped token is
never compared with `")"`, and incrementing at `tokens.end()` is the same
modelled undefined behaviour. -/
def parsePrimary : Nat → List String → Nat → Except Err (Expr × Nat)
  | 0, _, _ => .error .outOfFuel
  | fuel + 1, ts, cur =>
    match ts[cur]? with
    | none => .error .outOfBounds
    | some tk =>
      match stollModel tk with
      | some v => pure (Expr.integer v, cur + 1)
      | none =>
        if tk = "(" then do
          let (inner, cur1) ← parseLogical fuel ts (cur + 1)
          if cur1 < ts.length then pure (inner, cur1 + 1)
          else .error .outOfBounds
        else .error .syntaxError

termination_by structural fuel ts cur => fuel
end

/-- Fuel supplied to the parser; far more than the recursion can consume on
a token sequence of this length. -/
def parserFuel (ts : List String) : Nat := 8 * ts.length + 8

/-- `Parser::parse`: start at the lowest-precedence level with the cursor
on the first token. -/
def parse (ts : List String) : Except Err (Expr × Nat) :=
  parseLogical (parserFuel ts) ts 0

/-- The driver in `main`: tokenize, parse, evaluate.  Tokens left over
after parsing are ignored, exactly as in the source. -/
def runExpr (s : String) : Except Err Int := do
  let ts ← tokenize s
  let (tree, _) ← parse ts
  calculate tree

/-! Helper lemmas about characters and the tokenizer. -/

theorem isDigit_bounds {c : Char} (h : c.isDigit = true) :
    48 ≤ c.toNat ∧ c.toNat ≤ 57 := by
  simp [Char.isDigit] at h
  exact h

theorem isDigit_ne {c : Char} (h : c.isDigit = true) {d : Char}
    (hd : d.toNat < 48 ∨ 57 < d.toNat) : c ≠ d := by
  intro he
  subst he
  have hb := isDigit_bounds h
  omega

theorem charLower_digit {c : Char} (h : c.isDigit = true) : charLower c = c := by
  have hb := isDigit_bounds h
  rw [charLower, if_neg]
  rintro ⟨h1, _⟩
  have h1n : (65 : Nat) ≤ c.toNat := h1
  omega

theorem takeWhile_digit_append {da rest : List Char}
    (hall : ∀ c ∈ da, c.isDigit = true)
    (hrest : (rest.headD ' ').isDigit = false) :
    (da ++ rest).takeWhile Char.isDigit = da := by
  have hda : da.takeWhile Char.isDigit = da := List.takeWhile_eq_self_iff.mpr hall
  have hr : rest.takeWhile Char.isDigit = [] := by
    cases rest with
    | nil => rfl
    | cons r rs =>
      simp only [List.headD_cons] at hrest
      simp [List.takeWhile_cons, hrest]
  rw [List.takeWhile_append, if_pos (by rw [hda]), hr, List.append_nil]

theorem dropWhile_digit_append {da rest : List Char}
    (hall : ∀ c ∈ da, c.isDigit = true)
    (hrest : (rest.headD ' ').isDigit = false) :
    (da ++ rest).dropWhile Char.isDigit = rest := by
  have h1 := List.takeWhile_append_dropWhile Char.isDigit (da ++ rest)
  rw [takeWhile_digit_append hall hrest] at h1
  exact List.append_cancel_left h1

theorem tokLen_digit {c : Char} {cs : List Char} (h : c.isDigit = true) :
    tokLen (c :: cs) = ((c :: cs).takeWhile Char.isDigit).length := by
  have hne : ∀ d : Char, d.toNat < 48 ∨ 57 < d.toNat → c ≠ d :=
    fun d hd => isDigit_ne h hd
  simp [tokLen, ciStarts, charLower_digit h, h,
    hne 'a' (by decide), hne 'o' (by decide), hne 'x' (by decide),
    hne '<' (by decide), hne '>' (by decide), hne '/' (by decide),
    hne '!' (by decide), hne '=' (by decide), hne '+' (by decide),
    hne '-' (by decide), hne '*' (by decide), hne '(' (by decide),
    hne ')' (by decide)]

theorem tryTok_digit_append {da rest : List Char} (hne : da ≠ [])
    (hall : ∀ c ∈ da, c.isDigit = true)
    (hrest : (rest.headD ' ').isDigit = false) :
    tryTok (da ++ rest) = some (String.mk da, rest) := by
  obtain ⟨c, da', rfl⟩ : ∃ c da', da = c :: da' := by
    cases da with
    | nil => exact absurd rfl hne
    | cons c da' => exact ⟨c, da', rfl⟩
  have hc : c.isDigit = true := hall c (by simp)
  have hlen : tokLen (c :: da' ++ rest) = da'.length + 1 := by
    rw [show c :: da' ++ rest = c :: (da' ++ rest) from rfl, tokLen_digit hc,
      show c :: (da' ++ rest) = (c :: da') ++ rest from rfl,
      takeWhile_digit_append hall hrest]
    simp
  rw [tryTok, hlen]
  show some (String.mk (List.take (da'.length + 1) ((c :: da') ++ rest)),
      List.drop (da'.length + 1) ((c :: da') ++ rest)) = some (String.mk (c :: da'), rest)
  rw [show da'.length + 1 = (c :: da').length by simp, List.take_left, List.drop_left]

theorem tryTok_rest_lt {cs : List Char} {t : String} {rest : List Char}
    (h : tryTok cs = some (t, rest)) : rest.length < cs.length := by
  unfold tryTok at h
  split at h
  · cases h
  · rename_i n heq
    cases h
    cases cs with
    | nil =>
      rw [show tokLen [] = 0 from rfl] at heq
      cases heq
    | cons c cs' =>
      simp only [List.length_drop, List.length_cons]
      omega

theorem scanTokensAux_nil (n : Nat) : scanTokensAux n [] = [] := by
  cases n <;> rfl

theorem scanTokensAux_bound :
    ∀ n m (cs : List Char), cs.length ≤ n → cs.length ≤ m →
      scanTokensAux n cs = scanTokensAux m cs := by
  intro n
  induction n with
  | zero =>
    intro m cs h1 h2
    obtain rfl : cs = [] := by
      cases cs with
      | nil => rfl
      | cons c cs' => simp at h1
    rw [scanTokensAux_nil, scanTokensAux_nil]
  | succ n ih =>
    intro m cs h1 h2
    cases cs with
    | nil => rw [scanTokensAux_nil, scanTokensAux_nil]
    | cons c cs' =>
      obtain ⟨m', rfl⟩ : ∃ m', m = m' + 1 := by
        cases m with
        | zero => simp at h2
        | succ m' => exact ⟨m', rfl⟩
      simp only [List.length_cons] at h1 h2
      cases htry : tryTok (c :: cs') with
      | some pr =>
        obtain ⟨t, rest⟩ := pr
        have hlt := tryTok_rest_lt htry
        simp only [List.length_cons] at hlt
        simp only [scanTokensAux, htry]
        rw [ih m' rest (by omega) (by omega)]
      | none =>
        simp only [scanTokensAux, htry]
        exact ih m' cs' (by omega) (by omega)

theorem scanTokens_nil : scanTokens [] = [] := rfl

theorem scanTokens_some {c : Char} {cs rest : List Char} {t : String}
    (h : tryTok (c :: cs) = some (t, rest)) :
    scanTokens (c :: cs) = t :: scanTokens rest := by
  have hlt := tryTok_rest_lt h
  simp only [List.length_cons] at hlt
  show scanTokensAux (c :: cs).length (c :: cs) = _
  simp only [List.length_cons, scanTokensAux, h]
  rw [scanTokensAux_bound cs.length rest.length rest (by omega) (Nat.le_refl _)]
  rfl

theorem scanTokens_none {c : Char} {cs : List Char}
    (h : tryTok (c :: cs) = none) :
    scanTokens (c :: cs) = scanTokens cs := by
  show scanTokensAux (c :: cs).length (c :: cs) = _
  simp only [List.length_cons, scanTokensAux, h]
  rfl

theorem tryTok_space (rest : List Char) : tryTok (' ' :: rest) = none := rfl

theorem tryTok_lparen (rest : List Char) : tryTok ('(' :: rest) = some ("(", rest) := rfl

theorem tryTok_rparen (rest : List Char) : tryTok (')' :: rest) = some (")", rest) := rfl

theorem scanTokens_digit_append {da rest : List Char} (hne : da ≠ [])
    (hall : ∀ c ∈ da, c.isDigit = true)
    (hrest : (rest.headD ' ').isDigit = false) :
    scanTokens (da ++ rest) = String.mk da :: scanTokens rest := by
  obtain ⟨c, da', rfl⟩ : ∃ c da', da = c :: da' := by
    cases da with
    | nil => exact absurd rfl hne
    | cons c da' => exact ⟨c, da', rfl⟩
  exact scanTokens_some (tryTok_digit_append hne hall hrest)

theorem tryTok_minus (rest : List Char) : tryTok ('-' :: rest) = some ("-", rest) := rfl

/-- An integer-literal token: a nonempty string of decimal digits. -/
def isDigitStr (s : String) : Prop :=
  s.data ≠ [] ∧ ∀ c ∈ s.data, c.isDigit = true

instance (s : String) : Decidable (isDigitStr s) := by
  unfold isDigitStr
  infer_instance

theorem stollModel_digitStr {s : String} (h : isDigitStr s) :
    stollModel s = some ((natOfDigits s.data : Nat) : Int) := by
  obtain ⟨h1, h2⟩ := h
  unfold stollModel
  split
  · rename_i rest heq
    have : ('-' : Char).isDigit = true := h2 _ (by rw [heq]; exact List.mem_cons_self _ _)
    simp at this
  · rename_i rest heq
    have : ('+' : Char).isDigit = true := h2 _ (by rw [heq]; exact List.mem_cons_self _ _)
    simp at this
  · obtain ⟨c, cs, heq⟩ : ∃ c cs, s.data = c :: cs := by
      cases hd : s.data with
      | nil => exact absurd hd h1
      | cons c cs => exact ⟨c, cs, rfl⟩
    have hcd : c.isDigit = true := h2 c (by rw [heq]; exact List.mem_cons_self _ _)
    have hdp : digitPrefixVal (c :: cs) = some (natOfDigits (c :: cs)) := by
      have hd1 : digitPrefixVal (c :: cs) =
          if c.isDigit = true then
            some (natOfDigits ((c :: cs).takeWhile Char.isDigit)) else none := rfl
      rw [hd1, if_pos hcd, ← heq, List.takeWhile_eq_self_iff.mpr h2]
    rw [heq, hdp]
    rfl

theorem scanTokens_three_lits {sa sb sc : String} (ha : isDigitStr sa)
    (hb : isDigitStr sb) (hc : isDigitStr sc) :
    scanTokens ((sa ++ " - " ++ sb ++ " - " ++ sc).data) = [sa, "-", sb, "-", sc] := by
  have hdata : (sa ++ " - " ++ sb ++ " - " ++ sc).data =
      sa.data ++ (' ' :: '-' :: ' ' :: (sb.data ++ (' ' :: '-' :: ' ' :: (sc.data ++ [])))) := by
    simp [String.data_append]
  rw [hdata,
    scanTokens_digit_append ha.1 ha.2 (by rfl),
    scanTokens_none (tryTok_space _),
    scanTokens_some (tryTok_minus _),
    scanTokens_none (tryTok_space _),
    scanTokens_digit_append hb.1 hb.2 (by rfl),
    scanTokens_none (tryTok_space _),
    scanTokens_some (tryTok_minus _),
    scanTokens_none (tryTok_space _),
    scanTokens_digit_append hc.1 hc.2 (by rfl),
    scanTokens_nil]

theorem tokenize_three_lits {sa sb sc : String} (ha : isDigitStr sa)
    (hb : isDigitStr sb) (hc : isDigitStr sc) :
    tokenize (sa ++ " - " ++ sb ++ " - " ++ sc) = .ok [sa, "-", sb, "-", sc] := by
  unfold tokenize
  rw [scanTokens_three_lits ha hb hc]
  rfl

theorem parsePrimary_digit (f : Nat) (ts : List String) (cur : Nat) {tk : String}
    {va : Int} (h1 : ts[cur]? = some tk) (h2 : stollModel tk = some va) :
    parsePrimary (f + 1) ts cur = .ok (Expr.integer va, cur + 1) := by
  simp only [parsePrimary, h1, h2]
  rfl

theorem parseFactorLoop_stop (f : Nat) (ts : List String) (left : Expr) (cur : Nat)
    (h : Factor.check ((ts[cur]?).getD "") = false) :
    parseFactorLoop (f + 1) ts left cur = .ok (left, cur) := by
  simp only [parseFactorLoop, h]
  rfl

theorem parseTermLoop_stop (f : Nat) (ts : List String) (left : Expr) (cur : Nat)
    (h : Term.check ((ts[cur]?).getD "") = false) :
    parseTermLoop (f + 1) ts left cur = .ok (left, cur) := by
  simp only [parseTermLoop, h]
  rfl

theorem parseRelationLoop_stop (f : Nat) (ts : List String) (left : Expr) (cur : Nat)
    (h : Relation.check ((ts[cur]?).getD "") = false) :
    parseRelationLoop (f + 1) ts left cur = .ok (left, cur) := by
  simp only [parseRelationLoop, h]
  rfl

theorem parseLogicalLoop_stop (f : Nat) (ts : List String) (left : Expr) (cur : Nat)
    (h : Logical.check ((ts[cur]?).getD "") = false) :
    parseLogicalLoop (f + 1) ts left cur = .ok (left, cur) := by
  simp only [parseLogicalLoop, h]
  rfl

theorem parseFactor_comp (f : Nat) (ts : List String) (cur : Nat) {left : Expr}
    {c1 : Nat} {out : Except Err (Expr × Nat)}
    (h1 : parsePrimary f ts cur = .ok (left, c1))
    (h2 : parseFactorLoop f ts left c1 = out) :
    parseFactor (f + 1) ts cur = out := by
  simp only [parseFactor, h1]
  exact h2

theorem parseTerm_comp (f : Nat) (ts : List String) (cur : Nat) {left : Expr}
    {c1 : Nat} {out : Except Err (Expr × Nat)}
    (h1 : parseFactor f ts cur = .ok (left, c1))
    (h2 : parseTermLoop f ts left c1 = out) :
    parseTerm (f + 1) ts cur = out := by
  simp only [parseTerm, h1]
  exact h2

theorem parseRelation_comp (f : Nat) (ts : List String) (cur : Nat) {left : Expr}
    {c1 : Nat} {out : Except Err (Expr × Nat)}
    (h1 : parseTerm f ts cur = .ok (left, c1))
    (h2 : parseRelationLoop f ts left c1 = out) :
    parseRelation (f + 1) ts cur = out := by
  simp only [parseRelation, h1]
  exact h2

theorem parseLogical_comp (f : Nat) (ts : List String) (cur : Nat) {left : Expr}
    {c1 : Nat} {out : Except Err (Expr × Nat)}
    (h1 : parseRelation f ts cur = .ok (left, c1))
    (h2 : parseLogicalLoop f ts left c1 = out) :
    parseLogical (f + 1) ts cur = out := by
  simp only [parseLogical, h1]
  exact h2

theorem parseTermLoop_step (f : Nat) (ts : List String) (left : Expr) (cur : Nat)
    {op : String} {right : Expr} {c1 : Nat} {out : Except Err (Expr × Nat)}
    (hop : (ts[cur]?).getD "" = op) (hchk : Term.check op = true)
    (h2 : parseFactor f ts (cur + 1) = .ok (right, c1))
    (h3 : parseTermLoop f ts (Expr.term op left right) c1 = out) :
    parseTermLoop (f + 1) ts left cur = out := by
  simp only [parseTermLoop, hop, hchk, if_true, h2]
  exact h3

theorem parse_three_lits {sa sb sc : String} {va vb vc : Int}
    (ha : stollModel sa = some va) (hb : stollModel sb = some vb)
    (hc : stollModel sc = some vc) :
    parse [sa, "-", sb, "-", sc] =
      .ok (Expr.term "-" (Expr.term "-" (Expr.integer va) (Expr.integer vb))
        (Expr.integer vc), 5) := by
  set ts : List String := [sa, "-", sb, "-", sc] with hts
  have e0 : ts[0]? = some sa := rfl
  have e2 : ts[2]? = some sb := rfl
  have e4 : ts[4]? = some sc := rfl
  have o1 : (ts[1]?).getD "" = "-" := rfl
  have o3 : (ts[3]?).getD "" = "-" := rfl
  have o5 : (ts[5]?).getD "" = "" := rfl
  have hF0 : parseFactor 45 ts 0 = .ok (Expr.integer va, 1) :=
    parseFactor_comp 44 ts 0 (parsePrimary_digit 43 ts 0 e0 ha)
      (parseFactorLoop_stop 43 ts _ 1 (by rw [o1]; rfl))
  have hF2 : parseFactor 44 ts 2 = .ok (Expr.integer vb, 3) :=
    parseFactor_comp 43 ts 2 (parsePrimary_digit 42 ts 2 e2 hb)
      (parseFactorLoop_stop 42 ts _ 3 (by rw [o3]; rfl))
  have hF4 : parseFactor 43 ts 4 = .ok (Expr.integer vc, 5) :=
    parseFactor_comp 42 ts 4 (parsePrimary_digit 41 ts 4 e4 hc)
      (parseFactorLoop_stop 41 ts _ 5 (by rw [o5]; rfl))
  have hT : parseTerm 46 ts 0 =
      .ok (Expr.term "-" (Expr.term "-" (Expr.integer va) (Expr.integer vb))
        (Expr.integer vc), 5) :=
    parseTerm_comp 45 ts 0 hF0
      (parseTermLoop_step 44 ts _ 1 o1 rfl hF2
        (parseTermLoop_step 43 ts _ 3 o3 rfl hF4
          (parseTermLoop_stop 42 ts _ 5 (by rw [o5]; rfl))))
  have hR : parseRelation 47 ts 0 =
      .ok (Expr.term "-" (Expr.term "-" (Expr.integer va) (Expr.integer vb))
        (Expr.integer vc), 5) :=
    parseRelation_comp 46 ts 0 hT (parseRelationLoop_stop 45 ts _ 5 (by rw [o5]; rfl))
  have hL : parseLogical 48 ts 0 =
      .ok (Expr.term "-" (Expr.term "-" (Expr.integer va) (Expr.integer vb))
        (Expr.integer vc), 5) :=
    parseLogical_comp 47 ts 0 hR (parseLogicalLoop_stop 46 ts _ 5 (by rw [o5]; rfl))
  exact hL

theorem tryTok_keyword {k : String} (rest : List Char)
    (h : strLower k = "and" ∨ strLower k = "or" ∨ strLower k = "xor") :
    tryTok (k.data ++ rest) = some (k, rest) := by
  obtain ⟨d⟩ := k
  rcases h with h | h | h
  · have hd : d.map charLower = ['a', 'n', 'd'] := by
      have h2 := congrArg String.data h
      simpa [strLower] using h2
    rcases d with _ | ⟨c1, _ | ⟨c2, _ | ⟨c3, _ | ⟨c4, tl⟩⟩⟩⟩ <;> simp at hd
    obtain ⟨e1, e2, e3⟩ := hd
    have hci : ciStarts ['a', 'n', 'd'] (c1 :: c2 :: c3 :: rest) = true := by
      simp [ciStarts, e1, e2, e3]
    have htl : tokLen (c1 :: c2 :: c3 :: rest) = 3 := by
      simp [tokLen, hci]
    show tryTok (c1 :: c2 :: c3 :: rest) = _
    rw [tryTok, htl]
    rfl
  · have hd : d.map charLower = ['o', 'r'] := by
      have h2 := congrArg String.data h
      simpa [strLower] using h2
    rcases d with _ | ⟨c1, _ | ⟨c2, _ | ⟨c3, tl⟩⟩⟩ <;> simp at hd
    obtain ⟨e1, e2⟩ := hd
    have hci1 : ciStarts ['a', 'n', 'd'] (c1 :: c2 :: rest) = false := by
      simp [ciStarts, e1]
    have hci2 : ciStarts ['o', 'r'] (c1 :: c2 :: rest) = true := by
      simp [ciStarts, e1, e2]
    have htl : tokLen (c1 :: c2 :: rest) = 2 := by
      simp [tokLen, hci1, hci2]
    show tryTok (c1 :: c2 :: rest) = _
    rw [tryTok, htl]
    rfl
  · have hd : d.map charLower = ['x', 'o', 'r'] := by
      have h2 := congrArg String.data h
      simpa [strLower] using h2
    rcases d with _ | ⟨c1, _ | ⟨c2, _ | ⟨c3, _ | ⟨c4, tl⟩⟩⟩⟩ <;> simp at hd
    obtain ⟨e1, e2, e3⟩ := hd
    have hci1 : ciStarts ['a', 'n', 'd'] (c1 :: c2 :: c3 :: rest) = false := by
      simp [ciStarts, e1]
    have hci2 : ciStarts ['o', 'r'] (c1 :: c2 :: c3 :: rest) = false := by
      simp [ciStarts, e1]
    have hci3 : ciStarts ['x', 'o', 'r'] (c1 :: c2 :: c3 :: rest) = true := by
      simp [ciStarts, e1, e2, e3]
    have htl : tokLen (c1 :: c2 :: c3 :: rest) = 3 := by
      simp [tokLen, hci1, hci2, hci3]
    show tryTok (c1 :: c2 :: c3 :: rest) = _
    rw [tryTok, htl]
    rfl

/-! Claim theorems. -/

/-- C1: the claim says an input `a == b` tokenizes, parses and evaluates to
1 or 0.  In the code this is false: the tokenizer regex has no `==`
alternative, so `==` lexes as two separate `=` tokens and `parsePrimary`
throws the "syntax error (primary)" exception when the second `=` is
reached — even though `Relation::calculate` has a (dead) `op == "=="`
branch.  This theorem evaluates the embedding at the failing inputs. -/
theorem c1_double_eq_is_rejected :
    tokenize "1==1" = .ok ["1", "=", "=", "1"] ∧
    runExpr "1==1" = .error Err.syntaxError ∧
    runExpr "1 == 2" = .error Err.syntaxError := by
  refine ⟨by decide, by decide, by decide⟩

/-- C2: the claim says `"1/0"` fails with `ArithmeticError`.  The source's
`Factor::calculate` performs the native division `r1 / r2` with no guard:
there is no `ArithmeticError` anywhere in the program, and a zero divisor
reaches C++ undefined behaviour (modelled by `Err.intDivUB`), for every
left operand. -/
theorem c2_div_by_zero_is_unguarded :
    runExpr "1/0" = .error Err.intDivUB ∧
    (∀ a : Int, calculate (Expr.factor "/" (.integer a) (.integer 0)) =
      .error Err.intDivUB) := by
  refine ⟨by decide, fun a => ?_⟩
  simp [calculate]

/-- C3: the claim says an unterminated parenthesis such as `"(1+2"` fails
with `SyntaxError` and never reads past the end of the token sequence.  In
the source, `parsePrimary` executes `token++` after the recursive `parse()`
with no check at all: on `"(1+2"` the cursor already sits at
`tokens.end()`, and the increment is the modelled out-of-bounds iterator
misuse — not a `SyntaxError`. -/
theorem c3_unterminated_paren_is_ub :
    tokenize "(1+2" = .ok ["(", "1", "+", "2"] ∧
    runExpr "(1+2" = .error Err.outOfBounds ∧
    Err.outOfBounds ≠ Err.syntaxError := by
  refine ⟨by decide, by decide, by decide⟩

/-- C8: multiplicative operators bind tighter than additive ones and
parentheses override that precedence: `"2+3*4"` parses with the `*` under
the `+` node and evaluates to 14, while `"(2+3)*4"` parses with the `+`
under the `*` node and evaluates to 20. -/
theorem c8_precedence :
    runExpr "2+3*4" = .ok 14 ∧
    runExpr "(2+3)*4" = .ok 20 ∧
    parse ["2", "+", "3", "*", "4"] =
      .ok (Expr.term "+" (Expr.integer 2)
        (Expr.factor "*" (Expr.integer 3) (Expr.integer 4)), 5) ∧
    parse ["(", "2", "+", "3", ")", "*", "4"] =
      .ok (Expr.factor "*" (Expr.term "+" (Expr.integer 2) (Expr.integer 3))
        (Expr.integer 4), 7) := by
  refine ⟨by decide, by decide, by decide, by decide⟩

/-- C10: when the token sequence is exhausted but a primary operand is
still required, `parsePrimary` dereferences `*token` with the cursor at
`tokens.end()` — the out-of-bounds branch of the embedding — so the parse
of an input ending in a binary operator such as `"1+"` reaches that branch
instead of a clean `SyntaxError`. -/
theorem c10_trailing_op_out_of_bounds :
    tokenize "1+" = .ok ["1", "+"] ∧
    runExpr "1+" = .error Err.outOfBounds ∧
    Err.outOfBounds ≠ Err.syntaxError ∧
    (∀ (fuel : Nat) (ts : List String) (cur : Nat), ts.length ≤ cur →
      parsePrimary (fuel + 1) ts cur = .error Err.outOfBounds) := by
  refine ⟨by decide, by decide, by decide, fun fuel ts cur h => ?_⟩
  have hnone : ts[cur]? = none := by
    rw [List.getElem?_eq_none_iff]
    exact h
  simp [parsePrimary, hnone]

/-- Witness for the hypothesis-bearing part of `c10_trailing_op_out_of_bounds`. -/
theorem c10_trailing_op_witness :
    parsePrimary 1 [] 0 = .error Err.outOfBounds :=
  c10_trailing_op_out_of_bounds.2.2.2 0 [] 0 (by decide)

/-- C5 counterexample: the claim says all three logical operators treat any
non-zero operand as true, so `and` on the (non-zero) operands -1 and 1
would have to give 1.  `Logical::calculate` uses `r1 > 0` for `and`/`or`,
so it gives 0; end to end, `"0-1 and 1"` evaluates to 0. -/
theorem c5_negative_operand_counterexample :
    runExpr "0-1 and 1" = .ok 0 ∧
    calculate (Expr.logical "and" (.integer (-1)) (.integer 1)) = .ok 0 ∧
    ((-1 : Int) ≠ 0) ∧ ((1 : Int) ≠ 0) := by
  refine ⟨by decide, by decide, by decide, by decide⟩

/-- C5 amended: `and` and `or` treat an operand as true iff it is strictly
positive (`r1 > 0`), while `xor` casts each operand to `bool` (non-zero);
each returns 1 when its condition holds and 0 otherwise.  So negative
operands count as false for `and`/`or` but as true for `xor`. -/
theorem c5_logical_truthiness (a b : Int) :
    calculate (Expr.logical "and" (.integer a) (.integer b)) =
      .ok (if 0 < a ∧ 0 < b then 1 else 0) ∧
    calculate (Expr.logical "or" (.integer a) (.integer b)) =
      .ok (if 0 < a ∨ 0 < b then 1 else 0) ∧
    calculate (Expr.logical "xor" (.integer a) (.integer b)) =
      .ok (if (a ≠ 0) ≠ (b ≠ 0) then 1 else 0) := by
  have e1 : strcmpiEq "and" "and" = true := rfl
  have e2 : strcmpiEq "or" "and" = false := rfl
  have e3 : strcmpiEq "or" "or" = true := rfl
  have e4 : strcmpiEq "xor" "and" = false := rfl
  have e5 : strcmpiEq "xor" "or" = false := rfl
  have e6 : strcmpiEq "xor" "xor" = true := rfl
  refine ⟨?_, ?_, ?_⟩ <;> simp [calculate, e1, e2, e3, e4, e5, e6] <;> rfl

/-- C6: `tokenize` fails (with `LexError`) exactly when the scan produces
no token at all; otherwise it returns the scanned tokens, and unrecognized
characters between matches are skipped silently — `"1@@+2"` lexes as
`1`,`+`,`2` and evaluates to 3. -/
theorem c6_lex_fails_iff_no_tokens :
    (∀ s : String,
      (tokenize s = .error Err.lexError ↔ scanTokens s.data = []) ∧
      (scanTokens s.data ≠ [] → tokenize s = .ok (scanTokens s.data))) ∧
    tokenize "1@@+2" = .ok ["1", "+", "2"] ∧
    runExpr "1@@+2" = .ok 3 := by
  refine ⟨fun s => ?_, by decide, by decide⟩
  by_cases h : scanTokens s.data = [] <;> simp [tokenize, h]

/-- Witness for the hypothesis-bearing part of `c6_lex_fails_iff_no_tokens`. -/
theorem c6_lex_witness :
    tokenize "1@@+2" = .ok (scanTokens "1@@+2".data) :=
  (c6_lex_fails_iff_no_tokens.1 "1@@+2").2 (by decide)

/-- C4 counterexample: the claim says the parser's operator-class checks
only admit spellings the evaluation step handles, so `EvalError` is
unreachable for inputs that tokenize and parse.  But `Relation::check`'s
regex `([><=])` admits the bare `=`, which `Relation::calculate` does not
recognise: `"1=2"` tokenizes and parses successfully, and evaluating the
resulting tree throws the "relation NONE" `EvalError`. -/
theorem c4_bare_eq_reaches_eval_error :
    tokenize "1=2" = .ok ["1", "=", "2"] ∧
    Relation.check "=" = true ∧
    parse ["1", "=", "2"] =
      .ok (Expr.relation "=" (Expr.integer 1) (Expr.integer 2), 3) ∧
    runExpr "1=2" = .error (Err.evalNone "relation") := by
  refine ⟨by decide, by decide, by decide, by decide⟩

/-- C4 amended: every spelling admitted by `Logical::check`, `Term::check`
and `Factor::check` is handled by the corresponding `calculate`, and every
spelling admitted by `Relation::check` **except the bare `=`** is handled
by `Relation::calculate`; a `Relation` node carrying `=` always evaluates
to the "relation NONE" `EvalError`. -/
theorem c4_checks_vs_eval (op : String) (a b : Int) :
    (Logical.check op = true →
      calculate (Expr.logical op (.integer a) (.integer b)) ≠
        .error (.evalNone "logical")) ∧
    (Term.check op = true →
      calculate (Expr.term op (.integer a) (.integer b)) ≠
        .error (.evalNone "term")) ∧
    (Factor.check op = true →
      calculate (Expr.factor op (.integer a) (.integer b)) ≠
        .error (.evalNone "factor")) ∧
    (Relation.check op = true → op = "=" ∨
      calculate (Expr.relation op (.integer a) (.integer b)) ≠
        .error (.evalNone "relation")) ∧
    calculate (Expr.relation "=" (.integer a) (.integer b)) =
      .error (.evalNone "relation") := by
  refine ⟨?_, ?_, ?_, ?_, ?_⟩
  · intro hchk
    cases h1 : strcmpiEq op "and" <;> cases h2 : strcmpiEq op "or" <;>
      cases h3 : strcmpiEq op "xor" <;>
      simp_all [calculate, Logical.check] <;>
      simp [pure, Except.pure]
  · intro hchk
    simp only [Term.check, Bool.or_eq_true, decide_eq_true_eq] at hchk
    rcases hchk with rfl | rfl <;> simp [calculate] <;> simp [pure, Except.pure]
  · intro hchk
    simp only [Factor.check, Bool.or_eq_true, decide_eq_true_eq] at hchk
    rcases hchk with rfl | rfl
    · simp [calculate]
      simp [pure, Except.pure]
    · simp only [calculate]
      split <;> simp <;> simp [pure, Except.pure] <;> split <;> simp
  · intro hchk
    simp only [Relation.check, Bool.or_eq_true, decide_eq_true_eq] at hchk
    rcases hchk with ((((((rfl | rfl) | rfl) | rfl) | rfl) | rfl) | rfl)
    · exact Or.inr (by simp [calculate]; simp [pure, Except.pure])
    · exact Or.inr (by simp [calculate]; simp [pure, Except.pure])
    · exact Or.inr (by simp [calculate]; simp [pure, Except.pure])
    · exact Or.inr (by simp [calculate]; simp [pure, Except.pure])
    · exact Or.inr (by simp [calculate]; simp [pure, Except.pure])
    · exact Or.inr (by simp [calculate]; simp [pure, Except.pure])
    · exact Or.inl rfl
  · simp [calculate]

/-- Witness for `c4_checks_vs_eval`: instantiated at `op := "<"`, which
`Relation::check` admits, the evaluation step handles it. -/
theorem c4_checks_vs_eval_witness :
    calculate (Expr.relation "<" (.integer 0) (.integer 1)) ≠
      .error (.evalNone "relation") := by
  rcases (c4_checks_vs_eval "<" 0 1).2.2.2.1 (by decide) with h | h
  · exact absurd h (by decide)
  · exact h

theorem bind_ok_eq {e a b : Type} (x : a) (f : a -> Except e b) :
    (Except.ok x : Except e a) >>= f = f x := rfl

/-- C7: same-level binary operators group strictly left-associatively.  For
all integer-literal tokens `a`, `b`, `c`, the input `"a - b - c"` lexes to
the five expected tokens, parses to the tree `(a-b)-c` (the second `-`
folds the already-built `(a-b)` node as its left operand), and evaluates to
`(a-b)-c`; in particular `"10-3-2"` evaluates to 5, not 9. -/
theorem c7_left_associativity :
    (∀ sa sb sc : String, isDigitStr sa → isDigitStr sb → isDigitStr sc →
      tokenize (sa ++ " - " ++ sb ++ " - " ++ sc) = .ok [sa, "-", sb, "-", sc] ∧
      parse [sa, "-", sb, "-", sc] =
        .ok (Expr.term "-" (Expr.term "-" (Expr.integer (natOfDigits sa.data))
          (Expr.integer (natOfDigits sb.data)))
          (Expr.integer (natOfDigits sc.data)), 5) ∧
      runExpr (sa ++ " - " ++ sb ++ " - " ++ sc) =
        .ok (((natOfDigits sa.data : Int) - natOfDigits sb.data) -
          natOfDigits sc.data)) ∧
    runExpr "10-3-2" = .ok 5 := by
  refine ⟨fun sa sb sc ha hb hc => ?_, by decide⟩
  have hta := stollModel_digitStr ha
  have htb := stollModel_digitStr hb
  have htc := stollModel_digitStr hc
  have htok := tokenize_three_lits ha hb hc
  have hparse := parse_three_lits hta htb htc
  refine ⟨htok, hparse, ?_⟩
  have hcalc : calculate (Expr.term "-"
      (Expr.term "-" (Expr.integer (natOfDigits sa.data))
        (Expr.integer (natOfDigits sb.data)))
      (Expr.integer (natOfDigits sc.data))) =
      .ok (((natOfDigits sa.data : Int) - natOfDigits sb.data) -
        natOfDigits sc.data) := by
    simp [calculate]
    rfl
  simp [runExpr, htok, hparse, hcalc, bind_ok_eq]

/-- Witness for `c7_left_associativity` at the literals 10, 3, 2. -/
theorem c7_left_associativity_witness :
    runExpr "10 - 3 - 2" =
      .ok (((natOfDigits "10".data : Int) - natOfDigits "3".data) -
        natOfDigits "2".data) :=
  (c7_left_associativity.1 "10" "3" "2" (by decide) (by decide) (by decide)).2.2

/-- C9: the logical keywords are matched case-insensitively both by the
tokenizer (any casing of `and`/`or`/`xor` at the current position is
matched by the keyword alternative, the token keeping its original
spelling) and by `Logical::check` and `Logical::calculate` (which compare
case-insensitively, so any two spellings equal up to case behave
identically); `"1 AND 1"` and `"1 and 1"` both evaluate to 1. -/
theorem c9_keyword_case_insensitive :
    runExpr "1 AND 1" = .ok 1 ∧
    runExpr "1 and 1" = .ok 1 ∧
    (∀ (k : String) (rest : List Char),
      (strLower k = "and" ∨ strLower k = "or" ∨ strLower k = "xor") →
      tryTok (k.data ++ rest) = some (k, rest)) ∧
    (∀ op op' : String, strLower op = strLower op' →
      Logical.check op = Logical.check op' ∧
      ∀ l r : Expr,
        calculate (Expr.logical op l r) = calculate (Expr.logical op' l r)) := by
  refine ⟨by decide, by decide, fun k rest h => tryTok_keyword rest h,
    fun op op' h => ⟨?_, fun l r => ?_⟩⟩
  · simp [Logical.check, strcmpiEq, h]
  · simp only [calculate, strcmpiEq, h]

/-- Witness for `c9_keyword_case_insensitive` at concrete casings. -/
theorem c9_keyword_case_witness :
    tryTok ("AnD".data ++ [' ']) = some ("AnD", [' ']) ∧
    Logical.check "XOR" = Logical.check "xor" ∧
    calculate (Expr.logical "AND" (.integer 1) (.integer 1)) =
      calculate (Expr.logical "and" (.integer 1) (.integer 1)) :=
  ⟨c9_keyword_case_insensitive.2.2.1 "AnD" [' '] (by decide),
   (c9_keyword_case_insensitive.2.2.2 "XOR" "xor" (by decide)).1,
   (c9_keyword_case_insensitive.2.2.2 "AND" "and" (by decide)).2
     (.integer 1) (.integer 1)⟩
